import Mathlib

/-!
Shallow embedding of `src/tools/train.py` (training-orchestration loop for
supervised image classification, optionally with knowledge distillation).

Accuracies and loss values (Python floats) are modelled as rationals `ℚ`;
machine integers as `Nat`.  The interactions of the script with the external
framework (torch, tqdm, tensorboard) are modelled as an event trace
(`Call`), and Python exceptions as an optional `PyError` terminating the
trace.
-/

/-- Kind of training loss function selected at `train.py:67`:
`DistillationLoss(kd_cfg[ALPHA], kd_cfg[TEMP])` when KD is enabled,
`LabelSmoothCrossEntropy()` otherwise. -/
inductive LossKind where
  | distillation (alpha temp : ℚ)
  | labelSmooth
  deriving DecidableEq, Repr

/-- Python exceptions that the embedded fragments of `train.py` can raise. -/
inductive PyError where
  | keyError (k : String)
  | fileNotFound (p : String)
  | nameError (v : String)
  | indexError
  deriving DecidableEq, Repr

/-- External calls `main` makes into the framework, plus its own I/O
side effects, recorded as a trace. -/
inductive Call where
  /-- Call `get_sampler(train_cfg[DDP], ...)`, `train.py:48`. -/
  | getSamplerCall (ddp : Bool)
  /-- Call `DataLoader(train_dataset, ...)`, `train.py:51`. -/
  | mkTrainLoader (batchSize numWorkers : Nat) (dropLast pinMemory : Bool)
  /-- Call `DataLoader(val_dataset, ...)`, `train.py:52`. -/
  | mkValLoader (batchSize numWorkers : Nat) (pinMemory : Bool)
  /-- Call `get_model(...)`, `train.py:55` (student) and `train.py:62` (teacher). -/
  | buildModel (name variant : String) (pretrained : Option String)
      (numClasses imgSize : Nat)
  /-- Call `DDP(model, device_ids=[gpu])`, `train.py:58`. -/
  | wrapDDP (gpu : Nat)
  /-- Call `teacher_model.eval()`, `train.py:64`. -/
  | teacherToEval
  /-- construction of the loss function, `train.py:67`. -/
  | mkLossFn (k : LossKind)
  /-- Call `SummaryWriter(save_dir / logs)`, `train.py:71`. -/
  | mkWriter (dir : String)
  /-- Call `train_sampler.set_epoch(epoch)`, `train.py:77`. -/
  | setEpoch (e : Nat)
  /-- Call `teacher_model(img)` under `torch.no_grad()`, `train.py:88-89`. -/
  | teacherForward (noGrad : Bool)
  /-- Call `model(img)` under `autocast(enabled=AMP)`, `train.py:91-92`. -/
  | studentForward (amp : Bool)
  /-- the loss-function call at `train.py:93`; `teacherArg` records whether
  the teacher prediction is passed as an argument. -/
  | applyLoss (k : LossKind) (teacherArg : Bool)
  /-- Calls `scaler.scale(loss).backward(); scaler.step(optimizer); scaler.update()`,
  `train.py:96-98`. -/
  | backwardStep
  /-- Call `scheduler.step()`, `train.py:107`. -/
  | schedulerStep
  /-- Call `writer.add_scalar(tag, v, step)`, `train.py:106,115,116`. -/
  | addScalar (tag : String) (v : ℚ) (step : Nat)
  /-- Call `evaluate(val_dataloader, model, device)`, `train.py:112,132`. -/
  | evaluateCall
  /-- Call `torch.save(..., path)`, `train.py:121`; `useModule` records whether
  `model.module.state_dict()` (vs `model.state_dict()`) is saved. -/
  | saveCkpt (path : String) (useModule : Bool)
  /-- A `print(...)` of progress text, `train.py:114,122`. -/
  | printLine
  /-- Call `writer.close()`, `train.py:124`. -/
  | closeWriter
  /-- Call `pbar.close()`, `train.py:125`. -/
  | closePbar
  /-- Call `print(tabulate(table, ...))`, `train.py:138`, with the number of rows. -/
  | printResultsTable (rows : Nat)
  /-- Call `cleanup_ddp()`, `train.py:157`. -/
  | cleanupDDP
  deriving DecidableEq, Repr

/-- Section `cfg[KD][TEACHER]`: keys NAME, VARIANT, PRETRAINED. -/
structure TeacherCfg where
  name : String
  variant : String
  pretrained : Option String
  deriving DecidableEq, Repr

/-- Section `cfg[KD]`: keys ENABLE, ALPHA, TEMP, TEACHER. -/
structure KDCfg where
  enable : Bool
  alpha : ℚ
  temp : ℚ
  teacher : TeacherCfg
  deriving DecidableEq, Repr

/-- Section `cfg[TRAIN]`: keys EPOCHS, BATCH_SIZE, IMAGE_SIZE, DDP, AMP,
EVAL_INTERVAL. -/
structure TrainCfg where
  epochs : Nat
  batchSize : Nat
  imageSize : List Nat
  ddp : Bool
  amp : Bool
  evalInterval : Nat
  deriving DecidableEq, Repr

/-- Section `cfg[EVAL]`: keys BATCH_SIZE, IMAGE_SIZE. -/
structure EvalCfg where
  batchSize : Nat
  imageSize : List Nat
  deriving DecidableEq, Repr

/-- Section `cfg[OPTIMIZER]`: keys NAME, LR, DECAY. -/
structure OptimCfg where
  name : String
  lr : ℚ
  decay : ℚ
  deriving DecidableEq, Repr

/-- The configuration values `main` reads from the YAML-sourced dict. -/
structure Config where
  device : String
  train : TrainCfg
  evalc : EvalCfg
  kd : KDCfg
  optim : OptimCfg
  scheduler : String
  modelName : String
  modelVariant : String
  datasetRoot : String
  saveDir : String
  deriving DecidableEq, Repr

/-- The external world `main` runs against: machine CPU count, dataset
sizes, the per-iteration loss values `loss.item()` produced by training,
and the accuracy pairs returned by `evaluate`. -/
structure Env where
  cpuCount : Nat
  trainLen : Nat
  numClasses : Nat
  /-- `loss.item()` at (epoch, iteration). -/
  lossAt : Nat → Nat → ℚ
  /-- `(top1_acc, top5_acc)` returned by `evaluate` when called at the end
  of the given epoch (`train.py:112`). -/
  evalRes : Nat → ℚ × ℚ
  /-- result of the final teacher evaluation (`train.py:132`). -/
  teacherRes : ℚ × ℚ

/-- The best-accuracy update at `train.py:118-120`: the `(best_top1_acc,
best_top5_acc)` pair is replaced by the new `(top1_acc, top5_acc)` exactly
when `top1_acc > best_top1_acc`. -/
def evalUpdate (b e : ℚ × ℚ) : ℚ × ℚ :=
  if e.1 > b.1 then e else b

/-- Folding `evalUpdate` over the successive results of `evaluate`,
starting from `(0.0, 0.0)` (`train.py:29`) in `main`. -/
def runBest (b : ℚ × ℚ) (evals : List (ℚ × ℚ)) : ℚ × ℚ :=
  evals.foldl evalUpdate b

/-- For each evaluation in turn, whether `train.py:121` writes the
checkpoint at that evaluation (the guard `top1_acc > best_top1_acc` of
`train.py:118`), threading the best pair as the loop does. -/
def runSaves : (ℚ × ℚ) → List (ℚ × ℚ) → List Bool
  | _, [] => []
  | b, e :: rest => decide (e.1 > b.1) :: runSaves (evalUpdate b e) rest

/-- Spec-side description (from the words of the claim, for comparison with
`runSaves`): the checkpoint is written at an evaluation exactly when its
top-1 accuracy strictly exceeds the maximum top-1 accuracy recorded so
far, where the running maximum starts at `0.0`. -/
def savesSpec : ℚ → List (ℚ × ℚ) → List Bool
  | _, [] => []
  | m, e :: rest => decide (e.1 > m) :: savesSpec (max m e.1) rest

theorem evalUpdate_fst (b e : ℚ × ℚ) :
    (evalUpdate b e).1 = max b.1 e.1 := by
  unfold evalUpdate
  split
  · next h => exact (max_eq_right (le_of_lt h)).symm
  · next h => exact (max_eq_left (le_of_not_lt h)).symm

theorem runSaves_eq_savesSpec (evals : List (ℚ × ℚ)) (b : ℚ × ℚ) :
    runSaves b evals = savesSpec b.1 evals := by
  induction evals generalizing b with
  | nil => rfl
  | cons e rest ih =>
      simp only [runSaves, savesSpec]
      refine congrArg _ ?_
      rw [ih (evalUpdate b e), evalUpdate_fst]

theorem runBest_fst_eq_foldl_max (evals : List (ℚ × ℚ)) (b : ℚ × ℚ) :
    (runBest b evals).1 = (evals.map Prod.fst).foldl max b.1 := by
  induction evals generalizing b with
  | nil => rfl
  | cons e rest ih =>
      simp only [runBest, List.foldl, List.map] at *
      rw [ih (evalUpdate b e), evalUpdate_fst]

theorem runBest_mem_cons (evals : List (ℚ × ℚ)) (b : ℚ × ℚ) :
    runBest b evals ∈ b :: evals := by
  induction evals generalizing b with
  | nil => simp [runBest]
  | cons e rest ih =>
      have h := ih (evalUpdate b e)
      have hupd : evalUpdate b e = e ∨ evalUpdate b e = b := by
        unfold evalUpdate; split
        · exact Or.inl rfl
        · exact Or.inr rfl
      have hrun : runBest b (e :: rest) = runBest (evalUpdate b e) rest := rfl
      rw [hrun]
      rcases List.mem_cons.mp h with h1 | h2
      · rcases hupd with he | hb
        · rw [h1, he]; exact List.mem_cons_of_mem _ (List.mem_cons_self _ _)
        · rw [h1, hb]; exact List.mem_cons_self _ _
      · exact List.mem_cons_of_mem _ (List.mem_cons_of_mem _ h2)

/-- C1: on every evaluation, the checkpoint is written exactly when the new
top-1 accuracy strictly exceeds the best recorded so far, and the tracked
best top-1 accuracy equals the maximum of all top-1 accuracies seen,
starting from `0.0`. -/
theorem checkpoint_on_strict_top1_improvement (evals : List (ℚ × ℚ)) :
    runSaves (0, 0) evals = savesSpec 0 evals ∧
    (runBest (0, 0) evals).1 = (evals.map Prod.fst).foldl max 0 := by
  exact ⟨runSaves_eq_savesSpec evals (0, 0),
         runBest_fst_eq_foldl_max evals (0, 0)⟩

/-- C2 counterexample: after the evaluations `(10, 50)` then `(20, 40)`,
`best_top5_acc` is `40`, not the maximum `50` of the top-5 accuracies. -/
theorem best_top5_not_running_max :
    ¬ ((runBest (0, 0) [(10, 50), (20, 40)]).2 =
       (([(10, 50), (20, 40)] : List (ℚ × ℚ)).map Prod.snd).foldl max 0) := by
  norm_num [runBest, evalUpdate, List.foldl]

/-- C2 amended: `best_top5_acc` holds the top-5 accuracy that was returned
alongside the best top-1 accuracy: after every sequence of evaluations the
tracked pair is either the initial `(0.0, 0.0)` or one of the pairs
returned by `evaluate`, and its first component is the maximum top-1
accuracy seen (it is not in general the maximum top-5 accuracy). -/
theorem best_pair_tracks_argmax_top1 (evals : List (ℚ × ℚ)) :
    runBest (0, 0) evals ∈ ((0 : ℚ), (0 : ℚ)) :: evals ∧
    (runBest (0, 0) evals).1 = (evals.map Prod.fst).foldl max 0 := by
  exact ⟨runBest_mem_cons evals (0, 0),
         runBest_fst_eq_foldl_max evals (0, 0)⟩

/-- The guard of `train.py:110`:
`(epoch+1) % cfg[TRAIN][EVAL_INTERVAL] == 0 or (epoch+1) == epochs`. -/
def evalDecision (interval epochs epoch : Nat) : Bool :=
  ((epoch + 1) % interval == 0) || ((epoch + 1) == epochs)

/-- The running-loss accumulation of `train.py:101`:
`train_loss += loss.item() * img.shape[0]`, folded over the batches of one
epoch, each batch given as (size, loss value). -/
def epochLossSum (batches : List (Nat × ℚ)) : ℚ :=
  batches.foldl (fun acc p => acc + p.2 * (p.1 : ℚ)) 0

/-- The logged epoch loss of `train.py:105`: `train_loss /= iter + 1`,
where `iter + 1` is the number of completed iterations, i.e. the number of
batches. -/
def epochLoss (batches : List (Nat × ℚ)) : ℚ :=
  epochLossSum batches / (batches.length : ℚ)

/-- The batches fed to one epoch of training: with `drop_last=True`
(`train.py:51`) every batch has `cfg[TRAIN][BATCH_SIZE]` samples, and the
loss values come from the environment. -/
def epochBatches (env : Env) (bs iters epoch : Nat) : List (Nat × ℚ) :=
  (List.range iters).map (fun i => (bs, env.lossAt epoch i))

/-- Sizes of the successive batches a sequential loader forms from `n`
samples with batch size `bs`: full batches of `bs`, then the remainder.
Modelled from the documented batching semantics of the external
`torch.utils.data.DataLoader`. -/
def chunkSizes (n bs : Nat) : List Nat :=
  if hbs : bs = 0 then []
  else if hn : n = 0 then []
  else if n < bs then [n]
  else bs :: chunkSizes (n - bs) bs
termination_by n
decreasing_by
  exact Nat.sub_lt (Nat.pos_of_ne_zero hn) (Nat.pos_of_ne_zero hbs)

/-- Batch sizes delivered by the loader: with `drop_last=True` the final
incomplete batch, if any, is discarded.  Modelled from the documented
semantics of the external `torch.utils.data.DataLoader` as configured at
`train.py:51`. -/
def dataLoaderBatchSizes (n bs : Nat) (dropLast : Bool) : List Nat :=
  if dropLast && (n % bs != 0) then (chunkSizes n bs).dropLast
  else chunkSizes n bs

/-- The iteration count of `train.py:72`:
`iters_per_epoch = len(train_dataset) // cfg[TRAIN][BATCH_SIZE]`. -/
def itersPerEpoch (trainLen batchSize : Nat) : Nat :=
  trainLen / batchSize

theorem chunkSizes_eq (bs : Nat) (hbs : 0 < bs) (n : Nat) :
    chunkSizes n bs =
      List.replicate (n / bs) bs ++
        (if n % bs = 0 then [] else [n % bs]) := by
  induction n using Nat.strong_induction_on with
  | _ n ih =>
    rw [chunkSizes]
    have hbs0 : ¬ bs = 0 := Nat.pos_iff_ne_zero.mp hbs
    simp only [hbs0, dite_false]
    by_cases hn : n = 0
    · subst hn
      simp
    · simp only [hn, dite_false]
      by_cases hlt : n < bs
      · have hdiv : n / bs = 0 := Nat.div_eq_of_lt hlt
        have hmod : n % bs = n := Nat.mod_eq_of_lt hlt
        simp [hdiv, hmod, hn, hlt]
      · have hle : bs ≤ n := Nat.le_of_not_lt hlt
        have hrec := ih (n - bs) (Nat.sub_lt (Nat.pos_of_ne_zero hn) hbs)
        simp only [hlt, if_false]
        rw [hrec]
        have hdiv : n / bs = (n - bs) / bs + 1 :=
          Nat.div_eq_sub_div hbs hle
        have hmod : n % bs = (n - bs) % bs :=
          Nat.mod_eq_sub_mod hle
        rw [hdiv, hmod, List.replicate_succ]
        simp

/-- The loss-function selection of `train.py:67`:
`DistillationLoss(kd_cfg[ALPHA], kd_cfg[TEMP]) if kd_cfg[ENABLE] else
LabelSmoothCrossEntropy()`. -/
def lossKind (kd : KDCfg) : LossKind :=
  if kd.enable then LossKind.distillation kd.alpha kd.temp
  else LossKind.labelSmooth

/-- The checkpoint path of `train.py:121`:
`save_dir / f"{cfg[MODEL][NAME]}_{cfg[MODEL][VARIANT]}.pth"`. -/
def savePath (cfg : Config) : String :=
  cfg.saveDir ++ "/" ++ cfg.modelName ++ "_" ++ cfg.modelVariant ++ ".pth"

/-- The metrics log directory of `train.py:71`: `save_dir / "logs"`. -/
def logsDir (cfg : Config) : String :=
  cfg.saveDir ++ "/logs"

/-- Trace of one iteration of the inner loop, `train.py:81-103`: a teacher
forward pass under `no_grad` when KD is enabled (`train.py:87-89`), the
student forward pass under `autocast` (`train.py:91-92`), the loss call of
`train.py:93` (with the teacher prediction as argument exactly when KD is
enabled), and the backward/step/update of `train.py:96-98`. -/
def iterBody (kd : KDCfg) (amp : Bool) : List Call :=
  (if kd.enable then [Call.teacherForward true] else []) ++
  [Call.studentForward amp,
   Call.applyLoss (lossKind kd) kd.enable,
   Call.backwardStep]

/-- Calls of the epoch prologue and inner loop, `train.py:77-103`: the
`set_epoch` of `train.py:77` under DDP, then the iteration body once per
batch. -/
def epochHead (cfg : Config) (iters epoch : Nat) : List Call :=
  (if cfg.train.ddp then [Call.setEpoch epoch] else []) ++
  List.flatten ((List.range iters).map
    (fun _ => iterBody cfg.kd cfg.train.amp))

/-- Calls of the evaluation block `train.py:111-122` given the result `r`
of `evaluate`: the evaluation, the accuracy print, the two scalar logs,
the checkpoint write exactly when `r` strictly improves the best top-1
accuracy (`train.py:118-121`), and the best-accuracy print. -/
def evalBlock (cfg : Config) (r best : ℚ × ℚ) (epoch : Nat) : List Call :=
  [Call.evaluateCall, Call.printLine,
   Call.addScalar "val/Top1_Acc" r.1 epoch,
   Call.addScalar "val/Top5_Acc" r.2 epoch] ++
  (if r.1 > best.1
     then [Call.saveCkpt (savePath cfg) cfg.train.ddp] else []) ++
  [Call.printLine]

/-- Trace, outcome and updated best pair of one epoch of the loop body,
`train.py:75-122`.  With zero iterations the division of `train.py:105`
raises `NameError` (the loop variable `iter` was never bound).  The
evaluation block `train.py:110-122` runs exactly when the guard of
`train.py:110` holds. -/
def epochTrace (cfg : Config) (env : Env) (iters epoch : Nat)
    (best : ℚ × ℚ) : List Call × Option PyError × (ℚ × ℚ) :=
  if iters = 0 then
    (epochHead cfg iters epoch, some (PyError.nameError "iter"), best)
  else if evalDecision cfg.train.evalInterval cfg.train.epochs epoch then
    (epochHead cfg iters epoch ++
       [Call.addScalar "train/loss"
          (epochLoss (epochBatches env cfg.train.batchSize iters epoch))
          epoch,
        Call.schedulerStep] ++
       evalBlock cfg (env.evalRes epoch) best epoch,
     none, evalUpdate best (env.evalRes epoch))
  else
    (epochHead cfg iters epoch ++
       [Call.addScalar "train/loss"
          (epochLoss (epochBatches env cfg.train.batchSize iters epoch))
          epoch,
        Call.schedulerStep],
     none, best)

/-- The epoch loop `for epoch in range(epochs)` of `train.py:74`, starting
at epoch `e` with `k` epochs remaining: an exception in one epoch aborts
the loop and propagates. -/
def loopEpochs (cfg : Config) (env : Env) (iters : Nat) :
    Nat → Nat → (ℚ × ℚ) → List Call × Option PyError × (ℚ × ℚ)
  | _, 0, best => ([], none, best)
  | e, k + 1, best =>
      let r := epochTrace cfg env iters e best
      match r.2.1 with
      | some er => (r.1, some er, r.2.2)
      | none =>
          let r2 := loopEpochs cfg env iters (e + 1) k r.2.2
          (r.1 ++ r2.1, r2.2.1, r2.2.2)

/-- Calls issued before the student model is built: the sampler choice of
`train.py:48` and the two loaders of `train.py:51-52`.  Both loaders get
`num_workers = mp.cpu_count()` (`train.py:30`); the training loader has
`drop_last=True`, the validation loader does not pass `drop_last`. -/
def preCalls (cfg : Config) (env : Env) : List Call :=
  [Call.getSamplerCall cfg.train.ddp,
   Call.mkTrainLoader cfg.train.batchSize env.cpuCount true true,
   Call.mkValLoader cfg.evalc.batchSize env.cpuCount true]

/-- Calls of `train.py:55-71` once `cfg[TRAIN][IMAGE_SIZE][0] = sz` is
known: student model build, optional DDP wrap (`train.py:58`), optional
teacher build and `eval()` (`train.py:61-64`), loss-function construction
(`train.py:67`) and the tensorboard writer (`train.py:71`). -/
def setupCalls (cfg : Config) (env : Env) (gpu sz : Nat) : List Call :=
  [Call.buildModel cfg.modelName cfg.modelVariant none env.numClasses sz] ++
  (if cfg.train.ddp then [Call.wrapDDP gpu] else []) ++
  (if cfg.kd.enable then
     [Call.buildModel cfg.kd.teacher.name cfg.kd.teacher.variant
        cfg.kd.teacher.pretrained env.numClasses sz,
      Call.teacherToEval]
   else []) ++
  [Call.mkLossFn (lossKind cfg.kd), Call.mkWriter (logsDir cfg)]

/-- The remainder of `main` after setup: the epoch loop (`train.py:74`),
`writer.close()` (`train.py:124`), `pbar.close()` (`train.py:125`, a
`NameError` when zero epochs ran, since `pbar` was never bound), and the
results table of `train.py:127-138` (a second row and a teacher evaluation
when KD is enabled, `train.py:131-133`). -/
def afterSetup (cfg : Config) (env : Env) : List Call × Option PyError :=
  let iters := itersPerEpoch env.trainLen cfg.train.batchSize
  let lr := loopEpochs cfg env iters 0 cfg.train.epochs (0, 0)
  match lr.2.1 with
  | some er => (lr.1, some er)
  | none =>
      if cfg.train.epochs = 0 then
        (lr.1 ++ [Call.closeWriter], some (PyError.nameError "pbar"))
      else
        (lr.1 ++ [Call.closeWriter, Call.closePbar] ++
         (if cfg.kd.enable then [Call.evaluateCall] else []) ++
         [Call.printResultsTable (if cfg.kd.enable then 2 else 1)],
         none)

/-- Trace semantics of `main` (`train.py:27-139`): the trace of calls made
into the framework and the uncaught exception, if any, that aborts it.
Accessing `cfg[TRAIN][IMAGE_SIZE][0]` at `train.py:55` raises `IndexError`
when the configured list is empty. -/
def mainRun (cfg : Config) (env : Env) (gpu : Nat) :
    List Call × Option PyError :=
  match cfg.train.imageSize with
  | [] => (preCalls cfg env, some PyError.indexError)
  | sz :: _ =>
      (preCalls cfg env ++ setupCalls cfg env gpu sz ++
         (afterSetup cfg env).1,
       (afterSetup cfg env).2)

/-- A YAML value as loaded by `yaml.load` at `train.py:148`. -/
inductive YVal where
  | str (s : String)
  | nat (n : Nat)
  | rat (q : ℚ)
  | bool (b : Bool)
  | natList (l : List Nat)
  | dict (entries : List (String × YVal))

/-- Python dict subscripting `d[k]`: a missing key raises `KeyError`. -/
def lookupKey (entries : List (String × YVal)) (k : String) :
    Except PyError YVal :=
  match entries.find? (fun p => p.1 == k) with
  | some p => Except.ok p.2
  | none => Except.error (PyError.keyError k)

/-- A value used where a string is expected; other shapes fail downstream
in the framework, modelled as a `keyError` on a type tag. -/
def asStr : YVal → Except PyError String
  | YVal.str s => Except.ok s
  | _ => Except.error (PyError.keyError "str")

def asNat : YVal → Except PyError Nat
  | YVal.nat n => Except.ok n
  | _ => Except.error (PyError.keyError "nat")

def asRat : YVal → Except PyError ℚ
  | YVal.rat q => Except.ok q
  | YVal.nat n => Except.ok (n : ℚ)
  | _ => Except.error (PyError.keyError "rat")

def asBool : YVal → Except PyError Bool
  | YVal.bool b => Except.ok b
  | _ => Except.error (PyError.keyError "bool")

def asNatList : YVal → Except PyError (List Nat)
  | YVal.natList l => Except.ok l
  | _ => Except.error (PyError.keyError "natList")

def asDict : YVal → Except PyError (List (String × YVal))
  | YVal.dict d => Except.ok d
  | _ => Except.error (PyError.keyError "dict")

/-- The PRETRAINED value of `train.py:62`: a path string, or a YAML
null/false meaning no pretrained weights. -/
def asPretrained : YVal → Except PyError (Option String)
  | YVal.str s => Except.ok (some s)
  | YVal.bool _ => Except.ok none
  | _ => Except.error (PyError.keyError "pretrained")

def getStr (d : List (String × YVal)) (k : String) :
    Except PyError String := (lookupKey d k).bind asStr

def getNat (d : List (String × YVal)) (k : String) :
    Except PyError Nat := (lookupKey d k).bind asNat

def getRat (d : List (String × YVal)) (k : String) :
    Except PyError ℚ := (lookupKey d k).bind asRat

def getBool (d : List (String × YVal)) (k : String) :
    Except PyError Bool := (lookupKey d k).bind asBool

def getNatList (d : List (String × YVal)) (k : String) :
    Except PyError (List Nat) := (lookupKey d k).bind asNatList

def getDict (d : List (String × YVal)) (k : String) :
    Except PyError (List (String × YVal)) := (lookupKey d k).bind asDict

/-- The configuration reads `main` performs on the loaded YAML dict
(`train.py:31-37` and the later subscript accesses throughout `main`),
gathered into one extraction.  The keys under `KD.TEACHER` are read only
when `KD.ENABLE` is true, as in `train.py:61-62`. -/
def cfgOf (d : List (String × YVal)) (saveDir : String) :
    Except PyError Config := do
  let device ← getStr d "DEVICE"
  let trainD ← getDict d "TRAIN"
  let evalD ← getDict d "EVAL"
  let kdD ← getDict d "KD"
  let optD ← getDict d "OPTIMIZER"
  let epochs ← getNat trainD "EPOCHS"
  let lr ← getRat optD "LR"
  let trainImg ← getNatList trainD "IMAGE_SIZE"
  let evalImg ← getNatList evalD "IMAGE_SIZE"
  let datasetD ← getDict d "DATASET"
  let root ← getStr datasetD "ROOT"
  let ddp ← getBool trainD "DDP"
  let trainBs ← getNat trainD "BATCH_SIZE"
  let evalBs ← getNat evalD "BATCH_SIZE"
  let kdEnable ← getBool kdD "ENABLE"
  let teacher ←
    if kdEnable then do
      let teacherD ← getDict kdD "TEACHER"
      let tName ← getStr teacherD "NAME"
      let tVariant ← getStr teacherD "VARIANT"
      let tPre ← (lookupKey teacherD "PRETRAINED").bind asPretrained
      pure (⟨tName, tVariant, tPre⟩ : TeacherCfg)
    else pure (⟨"", "", none⟩ : TeacherCfg)
  let kdAlpha ← getRat kdD "ALPHA"
  let kdTemp ← getRat kdD "TEMP"
  let amp ← getBool trainD "AMP"
  let evalInterval ← getNat trainD "EVAL_INTERVAL"
  let optName ← getStr optD "NAME"
  let decay ← getRat optD "DECAY"
  let sched ← getStr d "SCHEDULER"
  let modelD ← getDict d "MODEL"
  let mName ← getStr modelD "NAME"
  let mVariant ← getStr modelD "VARIANT"
  pure
    { device := device
      train :=
        { epochs := epochs, batchSize := trainBs, imageSize := trainImg,
          ddp := ddp, amp := amp, evalInterval := evalInterval }
      evalc := { batchSize := evalBs, imageSize := evalImg }
      kd :=
        { enable := kdEnable, alpha := kdAlpha, temp := kdTemp,
          teacher := teacher }
      optim := { name := optName, lr := lr, decay := decay }
      scheduler := sched
      modelName := mName
      modelVariant := mVariant
      datasetRoot := root
      saveDir := saveDir }

/-- The entry point, `train.py:142-157`: open and parse the config file
(`train.py:147-148`, `FileNotFoundError` when missing), read `SAVE_DIR`
(`train.py:151`), run `main`, and call `cleanup_ddp` (`train.py:157`) only
when `main` returned normally.  No call is wrapped in a handler, so the
first exception is the outcome. -/
def entryPoint (files : String → Option (List (String × YVal)))
    (cfgPath : String) (env : Env) (gpu : Nat) :
    List Call × Option PyError :=
  match files cfgPath with
  | none => ([], some (PyError.fileNotFound cfgPath))
  | some d =>
      match getStr d "SAVE_DIR" with
      | Except.error e => ([], some e)
      | Except.ok saveDir =>
          match cfgOf d saveDir with
          | Except.error e => ([], some e)
          | Except.ok cfg =>
              match mainRun cfg env gpu with
              | (t, some e) => (t, some e)
              | (t, none) => (t ++ [Call.cleanupDDP], none)

theorem iterBody_mem_cases (kd : KDCfg) (amp : Bool) (c : Call)
    (h : c ∈ iterBody kd amp) :
    (c = Call.teacherForward true ∧ kd.enable = true) ∨
    c = Call.studentForward amp ∨
    c = Call.applyLoss (lossKind kd) kd.enable ∨
    c = Call.backwardStep := by
  unfold iterBody at h
  rw [List.mem_append] at h
  rcases h with h | h
  · split at h
    · next he => simp at h; exact Or.inl ⟨h, he⟩
    · simp at h
  · simp at h; tauto

theorem epochHead_mem_cases (cfg : Config) (iters epoch : Nat) (c : Call)
    (h : c ∈ epochHead cfg iters epoch) :
    (∃ e2, c = Call.setEpoch e2) ∨
    c ∈ iterBody cfg.kd cfg.train.amp := by
  unfold epochHead at h
  rw [List.mem_append] at h
  rcases h with h | h
  · split at h
    · simp at h; exact Or.inl ⟨epoch, h⟩
    · simp at h
  · rw [List.mem_flatten] at h
    obtain ⟨l, hl, hc⟩ := h
    rw [List.mem_map] at hl
    obtain ⟨i, _, rfl⟩ := hl
    exact Or.inr hc

theorem evalBlock_mem_cases (cfg : Config) (r best : ℚ × ℚ)
    (epoch : Nat) (c : Call) (h : c ∈ evalBlock cfg r best epoch) :
    c = Call.evaluateCall ∨ c = Call.printLine ∨
    (∃ tg v, c = Call.addScalar tg v epoch) ∨
    c = Call.saveCkpt (savePath cfg) cfg.train.ddp := by
  unfold evalBlock at h
  simp only [List.mem_append, List.mem_cons, List.mem_singleton,
    List.not_mem_nil] at h
  rcases h with ((h | h | h | h | h) | h) | h
  · tauto
  · tauto
  · exact Or.inr (Or.inr (Or.inl ⟨_, _, h⟩))
  · exact Or.inr (Or.inr (Or.inl ⟨_, _, h⟩))
  · simp at h
  · split at h
    · simp at h; tauto
    · simp at h
  · tauto

theorem epochTrace_mem_cases (cfg : Config) (env : Env)
    (iters epoch : Nat) (best : ℚ × ℚ) (c : Call)
    (h : c ∈ (epochTrace cfg env iters epoch best).1) :
    (∃ e2, c = Call.setEpoch e2) ∨
    c ∈ iterBody cfg.kd cfg.train.amp ∨
    (∃ tg v, c = Call.addScalar tg v epoch) ∨
    c = Call.schedulerStep ∨
    c = Call.evaluateCall ∨
    c = Call.printLine ∨
    c = Call.saveCkpt (savePath cfg) cfg.train.ddp := by
  unfold epochTrace at h
  split at h
  · exact (epochHead_mem_cases cfg iters epoch c h).imp id Or.inl
  · split at h
    · simp only [List.mem_append] at h
      rcases h with (h | h) | h
      · exact (epochHead_mem_cases cfg iters epoch c h).imp id Or.inl
      · simp at h
        rcases h with h | h
        · exact Or.inr (Or.inr (Or.inl ⟨_, _, h⟩))
        · tauto
      · rcases evalBlock_mem_cases cfg _ best epoch c h with
          h | h | ⟨tg, v, h⟩ | h
        · tauto
        · tauto
        · exact Or.inr (Or.inr (Or.inl ⟨tg, v, h⟩))
        · tauto
    · simp only [List.mem_append] at h
      rcases h with h | h
      · exact (epochHead_mem_cases cfg iters epoch c h).imp id Or.inl
      · simp at h
        rcases h with h | h
        · exact Or.inr (Or.inr (Or.inl ⟨_, _, h⟩))
        · tauto

theorem loopEpochs_mem (cfg : Config) (env : Env) (iters : Nat) :
    ∀ k e best c, c ∈ (loopEpochs cfg env iters e k best).1 →
      ∃ e2 b2, c ∈ (epochTrace cfg env iters e2 b2).1 := by
  intro k
  induction k with
  | zero =>
      intro e best c h
      simp [loopEpochs] at h
  | succ k ih =>
      intro e best c h
      rcases hE : epochTrace cfg env iters e best with ⟨t, err, b2⟩
      rcases err with _ | er
      · unfold loopEpochs at h
        rw [hE] at h
        dsimp only at h
        simp only [List.mem_append] at h
        rcases h with h | h
        · exact ⟨e, best, by rw [hE]; exact h⟩
        · exact ih (e + 1) _ c h
      · unfold loopEpochs at h
        rw [hE] at h
        dsimp only at h
        exact ⟨e, best, by rw [hE]; exact h⟩

theorem preCalls_mem_cases (cfg : Config) (env : Env) (c : Call)
    (h : c ∈ preCalls cfg env) :
    c = Call.getSamplerCall cfg.train.ddp ∨
    c = Call.mkTrainLoader cfg.train.batchSize env.cpuCount true true ∨
    c = Call.mkValLoader cfg.evalc.batchSize env.cpuCount true := by
  simpa [preCalls] using h

theorem setupCalls_mem_cases (cfg : Config) (env : Env) (gpu sz : Nat)
    (c : Call) (h : c ∈ setupCalls cfg env gpu sz) :
    (∃ nm vr pr ncls, c = Call.buildModel nm vr pr ncls sz) ∨
    c = Call.wrapDDP gpu ∨ c = Call.teacherToEval ∨
    c = Call.mkLossFn (lossKind cfg.kd) ∨
    c = Call.mkWriter (logsDir cfg) := by
  unfold setupCalls at h
  simp only [List.mem_append, List.mem_cons, List.mem_singleton,
    List.not_mem_nil] at h
  rcases h with ((h | h) | h) | h | h
  · exact Or.inl ⟨_, _, _, _, h.resolve_right (by simp)⟩
  · split at h
    · simp at h; tauto
    · simp at h
  · split at h
    · simp at h
      rcases h with h | h
      · exact Or.inl ⟨_, _, _, _, h⟩
      · tauto
    · simp at h
  · tauto
  · tauto

theorem afterSetup_mem_cases (cfg : Config) (env : Env) (c : Call)
    (h : c ∈ (afterSetup cfg env).1) :
    (∃ e2 b2, c ∈ (epochTrace cfg env
        (itersPerEpoch env.trainLen cfg.train.batchSize) e2 b2).1) ∨
    c = Call.closeWriter ∨ c = Call.closePbar ∨ c = Call.evaluateCall ∨
    (∃ r, c = Call.printResultsTable r) := by
  unfold afterSetup at h
  dsimp only at h
  rcases hL : loopEpochs cfg env
      (itersPerEpoch env.trainLen cfg.train.batchSize) 0
      cfg.train.epochs (0, 0) with ⟨t, err, b2⟩
  rcases err with _ | er
  · rw [hL] at h
    dsimp only at h
    split at h
    · simp only [List.mem_append, List.mem_singleton] at h
      rcases h with h | h
      · exact Or.inl (loopEpochs_mem cfg env _ _ _ _ c (by rw [hL]; exact h))
      · tauto
    · simp only [List.mem_append, List.mem_cons, List.mem_singleton,
        List.not_mem_nil, or_false] at h
      rcases h with ((h | h | h) | h) | h
      · exact Or.inl (loopEpochs_mem cfg env _ _ _ _ c (by rw [hL]; exact h))
      · tauto
      · tauto
      · split at h
        · simp at h; tauto
        · simp at h
      · exact Or.inr (Or.inr (Or.inr (Or.inr ⟨_, h⟩)))
  · rw [hL] at h
    dsimp only at h
    exact Or.inl (loopEpochs_mem cfg env _ _ _ _ c (by rw [hL]; exact h))

theorem mainRun_mem_cases (cfg : Config) (env : Env) (gpu : Nat) (c : Call)
    (h : c ∈ (mainRun cfg env gpu).1) :
    c ∈ preCalls cfg env ∨
    (∃ sz, c ∈ setupCalls cfg env gpu sz) ∨
    c ∈ (afterSetup cfg env).1 := by
  unfold mainRun at h
  split at h
  · exact Or.inl h
  · simp only [List.mem_append] at h
    rcases h with (h | h) | h
    · exact Or.inl h
    · exact Or.inr (Or.inl ⟨_, h⟩)
    · exact Or.inr (Or.inr h)

theorem evaluateCall_mem_epochTrace (cfg : Config) (env : Env)
    (iters epoch : Nat) (best : ℚ × ℚ) :
    Call.evaluateCall ∈ (epochTrace cfg env iters epoch best).1 ↔
      (iters ≠ 0 ∧
       evalDecision cfg.train.evalInterval cfg.train.epochs epoch = true) := by
  constructor
  · intro h
    unfold epochTrace at h
    split at h
    · exfalso
      rcases epochHead_mem_cases cfg iters epoch _ h with ⟨e2, hc⟩ | hc
      · cases hc
      · rcases iterBody_mem_cases _ _ _ hc with ⟨hc, _⟩ | hc | hc | hc <;>
          cases hc
    · next h0 =>
      split at h
      · next hdec => exact ⟨h0, hdec⟩
      · exfalso
        simp only [List.mem_append, List.mem_cons, List.mem_singleton,
          List.not_mem_nil, or_false] at h
        rcases h with h | h | h
        · rcases epochHead_mem_cases cfg iters epoch _ h with ⟨e2, hc⟩ | hc
          · cases hc
          · rcases iterBody_mem_cases _ _ _ hc with ⟨hc, _⟩ | hc | hc | hc <;>
              cases hc
        · cases h
        · cases h
  · rintro ⟨h0, hdec⟩
    unfold epochTrace
    rw [if_neg h0, if_pos hdec]
    simp [evalBlock]

/-- C3: for every epoch, the validation evaluation runs during that epoch
if and only if `epoch + 1` is a multiple of `TRAIN.EVAL_INTERVAL` or
`epoch + 1` equals `TRAIN.EPOCHS`; in particular the final epoch is always
evaluated when `EPOCHS > 0`.  (`iters ≠ 0` excludes the degenerate epoch
that raises `NameError` before reaching the evaluation guard, and a
positive `EVAL_INTERVAL` matches the Python `%`, which raises on zero.) -/
theorem eval_interval_schedule (cfg : Config) (env : Env)
    (iters epoch : Nat) (best : ℚ × ℚ)
    (hiters : iters ≠ 0) (_hint : 0 < cfg.train.evalInterval) :
    (Call.evaluateCall ∈ (epochTrace cfg env iters epoch best).1 ↔
      (cfg.train.evalInterval ∣ (epoch + 1) ∨
       epoch + 1 = cfg.train.epochs)) ∧
    (0 < cfg.train.epochs →
      Call.evaluateCall ∈
        (epochTrace cfg env iters (cfg.train.epochs - 1) best).1) := by
  have hdec : ∀ e, evalDecision cfg.train.evalInterval cfg.train.epochs e
      = true ↔ (cfg.train.evalInterval ∣ (e + 1) ∨
        e + 1 = cfg.train.epochs) := by
    intro e
    unfold evalDecision
    rw [Bool.or_eq_true, beq_iff_eq, beq_iff_eq, Nat.dvd_iff_mod_eq_zero]
  constructor
  · rw [evaluateCall_mem_epochTrace]
    constructor
    · rintro ⟨_, hd⟩
      exact (hdec epoch).mp hd
    · intro hd
      exact ⟨hiters, (hdec epoch).mpr hd⟩
  · intro hpos
    rw [evaluateCall_mem_epochTrace]
    refine ⟨hiters, (hdec _).mpr (Or.inr ?_)⟩
    exact Nat.succ_pred_eq_of_pos hpos

/-- A concrete configuration used to instantiate theorems with
hypotheses. -/
def cfgW : Config :=
  { device := "cuda"
    train :=
      { epochs := 1, batchSize := 1, imageSize := [224],
        ddp := false, amp := false, evalInterval := 1 }
    evalc := { batchSize := 1, imageSize := [224] }
    kd :=
      { enable := false, alpha := 0, temp := 0,
        teacher := { name := "", variant := "", pretrained := none } }
    optim := { name := "sgd", lr := 1, decay := 0 }
    scheduler := "steplr"
    modelName := "resnet"
    modelVariant := "18"
    datasetRoot := "data"
    saveDir := "out" }

/-- A concrete environment used to instantiate theorems with
hypotheses. -/
def envW : Env :=
  { cpuCount := 4, trainLen := 2, numClasses := 10,
    lossAt := fun _ _ => 1, evalRes := fun _ => (1, 2),
    teacherRes := (0, 0) }

/-- Witness for C3 at the concrete configuration `cfgW`. -/
theorem eval_interval_schedule_witness :
    (Call.evaluateCall ∈ (epochTrace cfgW envW 1 0 (0, 0)).1 ↔
      (cfgW.train.evalInterval ∣ (0 + 1) ∨ 0 + 1 = cfgW.train.epochs)) ∧
    (0 < cfgW.train.epochs →
      Call.evaluateCall ∈
        (epochTrace cfgW envW 1 (cfgW.train.epochs - 1) (0, 0)).1) :=
  eval_interval_schedule cfgW envW 1 0 (0, 0) (by decide) (by decide)

theorem saveCkpt_mem_epochTrace (cfg : Config) (env : Env)
    (iters epoch : Nat) (best : ℚ × ℚ) (p : String) (u : Bool)
    (h : Call.saveCkpt p u ∈ (epochTrace cfg env iters epoch best).1) :
    p = savePath cfg ∧ u = cfg.train.ddp := by
  rcases epochTrace_mem_cases cfg env iters epoch best _ h with
    ⟨e2, hc⟩ | hc | ⟨tg, v, hc⟩ | hc | hc | hc | hc
  · cases hc
  · rcases iterBody_mem_cases _ _ _ hc with ⟨hc, _⟩ | hc | hc | hc <;>
      cases hc
  · cases hc
  · cases hc
  · cases hc
  · cases hc
  · injection hc with h1 h2
    exact ⟨h1, h2⟩

/-- Whether a call can appear in the trace of an epoch body. -/
def epochSafe (c : Call) : Bool :=
  match c with
  | Call.setEpoch _ => true
  | Call.teacherForward _ => true
  | Call.studentForward _ => true
  | Call.applyLoss _ _ => true
  | Call.backwardStep => true
  | Call.addScalar _ _ _ => true
  | Call.schedulerStep => true
  | Call.evaluateCall => true
  | Call.printLine => true
  | Call.saveCkpt _ _ => true
  | _ => false

theorem epochTrace_safe (cfg : Config) (env : Env)
    (iters epoch : Nat) (best : ℚ × ℚ) (c : Call)
    (h : c ∈ (epochTrace cfg env iters epoch best).1) :
    epochSafe c = true := by
  rcases epochTrace_mem_cases cfg env iters epoch best _ h with
    ⟨e2, hc⟩ | hc | ⟨tg, v, hc⟩ | hc | hc | hc | hc
  · subst hc; rfl
  · rcases iterBody_mem_cases _ _ _ hc with ⟨hc, _⟩ | hc | hc | hc <;>
      (subst hc; rfl)
  · subst hc; rfl
  · subst hc; rfl
  · subst hc; rfl
  · subst hc; rfl
  · subst hc; rfl

theorem wrapDDP_mem_setupCalls (cfg : Config) (env : Env)
    (gpu sz g : Nat) :
    Call.wrapDDP g ∈ setupCalls cfg env gpu sz ↔
      (cfg.train.ddp = true ∧ g = gpu) := by
  unfold setupCalls
  by_cases hd : cfg.train.ddp = true <;>
    by_cases he : cfg.kd.enable = true <;>
      simp [hd, he]

theorem teacherToEval_mem_setupCalls (cfg : Config) (env : Env)
    (gpu sz : Nat) :
    Call.teacherToEval ∈ setupCalls cfg env gpu sz ↔
      cfg.kd.enable = true := by
  unfold setupCalls
  by_cases hd : cfg.train.ddp = true <;>
    by_cases he : cfg.kd.enable = true <;>
      simp [hd, he]

theorem saveCkpt_mem_mainRun (cfg : Config) (env : Env) (gpu : Nat)
    (p : String) (u : Bool)
    (h : Call.saveCkpt p u ∈ (mainRun cfg env gpu).1) :
    p = savePath cfg ∧ u = cfg.train.ddp := by
  rcases mainRun_mem_cases cfg env gpu _ h with h | ⟨sz, h⟩ | h
  · rcases preCalls_mem_cases cfg env _ h with hc | hc | hc <;> cases hc
  · rcases setupCalls_mem_cases cfg env gpu sz _ h with
      ⟨nm, vr, pr, nc, hc⟩ | hc | hc | hc | hc <;> cases hc
  · rcases afterSetup_mem_cases cfg env _ h with
      ⟨e2, b2, h2⟩ | hc | hc | hc | ⟨r, hc⟩
    · exact saveCkpt_mem_epochTrace cfg env _ e2 b2 p u h2
    · cases hc
    · cases hc
    · cases hc
    · cases hc

theorem mkWriter_mem_mainRun (cfg : Config) (env : Env) (gpu : Nat)
    (d : String) (h : Call.mkWriter d ∈ (mainRun cfg env gpu).1) :
    d = logsDir cfg := by
  rcases mainRun_mem_cases cfg env gpu _ h with h | ⟨sz, h⟩ | h
  · rcases preCalls_mem_cases cfg env _ h with hc | hc | hc <;> cases hc
  · rcases setupCalls_mem_cases cfg env gpu sz _ h with
      ⟨nm, vr, pr, nc, hc⟩ | hc | hc | hc | hc
    · cases hc
    · cases hc
    · cases hc
    · cases hc
    · injection hc with h1
  · rcases afterSetup_mem_cases cfg env _ h with
      ⟨e2, b2, h2⟩ | hc | hc | hc | ⟨r, hc⟩
    · have hs := epochTrace_safe cfg env _ e2 b2 _ h2
      simp [epochSafe] at hs
    · cases hc
    · cases hc
    · cases hc
    · cases hc

theorem mkWriter_mem_mainRun_pos (cfg : Config) (env : Env) (gpu sz : Nat)
    (rest : List Nat) (hsz : cfg.train.imageSize = sz :: rest) :
    Call.mkWriter (logsDir cfg) ∈ (mainRun cfg env gpu).1 := by
  simp [mainRun, hsz, preCalls, setupCalls]

/-- C5: every checkpoint write targets
`SAVE_DIR/<MODEL.NAME>_<MODEL.VARIANT>.pth`, the metrics writer logs to
`SAVE_DIR/logs` (and only there), and with a well-formed image-size list
the writer is in fact created at that directory. -/
theorem checkpoint_and_log_paths (cfg : Config) (env : Env) (gpu : Nat) :
    (∀ p u, Call.saveCkpt p u ∈ (mainRun cfg env gpu).1 →
       p = cfg.saveDir ++ "/" ++ cfg.modelName ++ "_" ++
           cfg.modelVariant ++ ".pth") ∧
    (∀ d, Call.mkWriter d ∈ (mainRun cfg env gpu).1 →
       d = cfg.saveDir ++ "/logs") ∧
    (cfg.train.imageSize ≠ [] →
       Call.mkWriter (cfg.saveDir ++ "/logs") ∈ (mainRun cfg env gpu).1) := by
  refine ⟨fun p u h => (saveCkpt_mem_mainRun cfg env gpu p u h).1,
          fun d h => mkWriter_mem_mainRun cfg env gpu d h,
          fun hne => ?_⟩
  cases hsz : cfg.train.imageSize with
  | nil => exact absurd hsz hne
  | cons sz rest => exact mkWriter_mem_mainRun_pos cfg env gpu sz rest hsz

/-- Witness for C5: at the concrete configuration `cfgW` the writer is
created at `out/logs`. -/
theorem checkpoint_and_log_paths_witness :
    Call.mkWriter (cfgW.saveDir ++ "/logs") ∈ (mainRun cfgW envW 0).1 :=
  (checkpoint_and_log_paths cfgW envW 0).2.2 (by decide)

theorem mkTrainLoader_mem_mainRun (cfg : Config) (env : Env) (gpu b w : Nat)
    (dl pm : Bool)
    (h : Call.mkTrainLoader b w dl pm ∈ (mainRun cfg env gpu).1) :
    b = cfg.train.batchSize ∧ w = env.cpuCount ∧ dl = true ∧ pm = true := by
  rcases mainRun_mem_cases cfg env gpu _ h with h | ⟨sz, h⟩ | h
  · rcases preCalls_mem_cases cfg env _ h with hc | hc | hc
    · cases hc
    · injection hc with h1 h2 h3 h4
      exact ⟨h1, h2, h3, h4⟩
    · cases hc
  · rcases setupCalls_mem_cases cfg env gpu sz _ h with
      ⟨nm, vr, pr, nc, hc⟩ | hc | hc | hc | hc <;> cases hc
  · rcases afterSetup_mem_cases cfg env _ h with
      ⟨e2, b2, h2⟩ | hc | hc | hc | ⟨r, hc⟩
    · have hs := epochTrace_safe cfg env _ e2 b2 _ h2
      simp [epochSafe] at hs
    · cases hc
    · cases hc
    · cases hc
    · cases hc

theorem mkValLoader_mem_mainRun (cfg : Config) (env : Env) (gpu b w : Nat)
    (pm : Bool)
    (h : Call.mkValLoader b w pm ∈ (mainRun cfg env gpu).1) :
    b = cfg.evalc.batchSize ∧ w = env.cpuCount ∧ pm = true := by
  rcases mainRun_mem_cases cfg env gpu _ h with h | ⟨sz, h⟩ | h
  · rcases preCalls_mem_cases cfg env _ h with hc | hc | hc
    · cases hc
    · cases hc
    · injection hc with h1 h2 h3
      exact ⟨h1, h2, h3⟩
  · rcases setupCalls_mem_cases cfg env gpu sz _ h with
      ⟨nm, vr, pr, nc, hc⟩ | hc | hc | hc | hc <;> cases hc
  · rcases afterSetup_mem_cases cfg env _ h with
      ⟨e2, b2, h2⟩ | hc | hc | hc | ⟨r, hc⟩
    · have hs := epochTrace_safe cfg env _ e2 b2 _ h2
      simp [epochSafe] at hs
    · cases hc
    · cases hc
    · cases hc
    · cases hc

theorem getSampler_mem_mainRun (cfg : Config) (env : Env) (gpu : Nat) :
    Call.getSamplerCall cfg.train.ddp ∈ (mainRun cfg env gpu).1 := by
  unfold mainRun
  split <;> simp [preCalls]

theorem wrapDDP_mem_mainRun (cfg : Config) (env : Env) (gpu sz : Nat)
    (rest : List Nat) (hsz : cfg.train.imageSize = sz :: rest) :
    Call.wrapDDP gpu ∈ (mainRun cfg env gpu).1 ↔ cfg.train.ddp = true := by
  constructor
  · intro h
    rcases mainRun_mem_cases cfg env gpu _ h with h | ⟨sz2, h⟩ | h
    · rcases preCalls_mem_cases cfg env _ h with hc | hc | hc <;> cases hc
    · exact ((wrapDDP_mem_setupCalls cfg env gpu sz2 gpu).mp h).1
    · rcases afterSetup_mem_cases cfg env _ h with
        ⟨e2, b2, h2⟩ | hc | hc | hc | ⟨r, hc⟩
      · have hs := epochTrace_safe cfg env _ e2 b2 _ h2
        simp [epochSafe] at hs
      · cases hc
      · cases hc
      · cases hc
      · cases hc
  · intro hd
    simp [mainRun, hsz, preCalls, setupCalls, hd]

/-- C6: the script only configures concurrency: both loaders are created
with `num_workers = mp.cpu_count()` (the training one with
`drop_last=True` and its configured batch size), the sampler choice is
delegated to `get_sampler` applied to the `TRAIN.DDP` flag, the model is
wrapped in DistributedDataParallel if and only if `TRAIN.DDP` is true, and
every checkpoint write saves the unwrapped `model.module` state dict
exactly when `TRAIN.DDP` is true. -/
theorem concurrency_only_configured (cfg : Config) (env : Env)
    (gpu sz : Nat) (rest : List Nat)
    (hsz : cfg.train.imageSize = sz :: rest) :
    (∀ b w dl pm, Call.mkTrainLoader b w dl pm ∈ (mainRun cfg env gpu).1 →
       b = cfg.train.batchSize ∧ w = env.cpuCount ∧ dl = true) ∧
    (∀ b w pm, Call.mkValLoader b w pm ∈ (mainRun cfg env gpu).1 →
       b = cfg.evalc.batchSize ∧ w = env.cpuCount) ∧
    Call.getSamplerCall cfg.train.ddp ∈ (mainRun cfg env gpu).1 ∧
    (Call.wrapDDP gpu ∈ (mainRun cfg env gpu).1 ↔ cfg.train.ddp = true) ∧
    (∀ p u, Call.saveCkpt p u ∈ (mainRun cfg env gpu).1 →
       u = cfg.train.ddp) := by
  refine ⟨?_, ?_, getSampler_mem_mainRun cfg env gpu,
          wrapDDP_mem_mainRun cfg env gpu sz rest hsz, ?_⟩
  · intro b w dl pm h
    obtain ⟨h1, h2, h3, _⟩ := mkTrainLoader_mem_mainRun cfg env gpu b w dl pm h
    exact ⟨h1, h2, h3⟩
  · intro b w pm h
    obtain ⟨h1, h2, _⟩ := mkValLoader_mem_mainRun cfg env gpu b w pm h
    exact ⟨h1, h2⟩
  · intro p u h
    exact (saveCkpt_mem_mainRun cfg env gpu p u h).2

/-- Witness for C6 at the concrete configuration `cfgW` (DDP off): the
sampler call carries the flag and no DDP wrap occurs. -/
theorem concurrency_only_configured_witness :
    Call.getSamplerCall cfgW.train.ddp ∈ (mainRun cfgW envW 0).1 ∧
    ¬ (Call.wrapDDP 0 ∈ (mainRun cfgW envW 0).1) := by
  have h := concurrency_only_configured cfgW envW 0 224 [] (by decide)
  refine ⟨h.2.2.1, fun hmem => ?_⟩
  have hd := h.2.2.2.1.mp hmem
  simp [cfgW] at hd

theorem teacherToEval_mem_mainRun (cfg : Config) (env : Env)
    (gpu sz : Nat) (rest : List Nat)
    (hsz : cfg.train.imageSize = sz :: rest) :
    Call.teacherToEval ∈ (mainRun cfg env gpu).1 ↔
      cfg.kd.enable = true := by
  constructor
  · intro h
    rcases mainRun_mem_cases cfg env gpu _ h with h | ⟨sz2, h⟩ | h
    · rcases preCalls_mem_cases cfg env _ h with hc | hc | hc <;> cases hc
    · exact (teacherToEval_mem_setupCalls cfg env gpu sz2).mp h
    · rcases afterSetup_mem_cases cfg env _ h with
        ⟨e2, b2, h2⟩ | hc | hc | hc | ⟨r, hc⟩
      · have hs := epochTrace_safe cfg env _ e2 b2 _ h2
        simp [epochSafe] at hs
      · cases hc
      · cases hc
      · cases hc
      · cases hc
  · intro he
    simp [mainRun, hsz, preCalls, setupCalls, he]

theorem mkLossFn_mem_mainRun (cfg : Config) (env : Env) (gpu : Nat)
    (k : LossKind) (h : Call.mkLossFn k ∈ (mainRun cfg env gpu).1) :
    k = lossKind cfg.kd := by
  rcases mainRun_mem_cases cfg env gpu _ h with h | ⟨sz, h⟩ | h
  · rcases preCalls_mem_cases cfg env _ h with hc | hc | hc <;> cases hc
  · rcases setupCalls_mem_cases cfg env gpu sz _ h with
      ⟨nm, vr, pr, nc, hc⟩ | hc | hc | hc | hc
    · cases hc
    · cases hc
    · cases hc
    · injection hc with h1
    · cases hc
  · rcases afterSetup_mem_cases cfg env _ h with
      ⟨e2, b2, h2⟩ | hc | hc | hc | ⟨r, hc⟩
    · have hs := epochTrace_safe cfg env _ e2 b2 _ h2
      simp [epochSafe] at hs
    · cases hc
    · cases hc
    · cases hc
    · cases hc

/-- C4: knowledge distillation is optional and controlled by `KD.ENABLE`:
the teacher is built from `KD.TEACHER.{NAME,VARIANT,PRETRAINED}` and put
in eval mode exactly when KD is enabled, the teacher is queried under
`no_grad` on every training batch exactly when KD is enabled, and the
constructed and applied loss is `DistillationLoss(KD.ALPHA, KD.TEMP)`
taking the teacher prediction when KD is enabled and
`LabelSmoothCrossEntropy` otherwise. -/
theorem kd_optional_controlled_by_enable (cfg : Config) (env : Env)
    (gpu sz : Nat) (rest : List Nat)
    (hsz : cfg.train.imageSize = sz :: rest) :
    (Call.teacherToEval ∈ (mainRun cfg env gpu).1 ↔
       cfg.kd.enable = true) ∧
    (cfg.kd.enable = true →
       Call.buildModel cfg.kd.teacher.name cfg.kd.teacher.variant
         cfg.kd.teacher.pretrained env.numClasses sz ∈
         (mainRun cfg env gpu).1) ∧
    (∀ k, Call.mkLossFn k ∈ (mainRun cfg env gpu).1 →
       k = (if cfg.kd.enable
              then LossKind.distillation cfg.kd.alpha cfg.kd.temp
              else LossKind.labelSmooth)) ∧
    Call.mkLossFn (lossKind cfg.kd) ∈ (mainRun cfg env gpu).1 ∧
    (Call.teacherForward true ∈ iterBody cfg.kd cfg.train.amp ↔
       cfg.kd.enable = true) ∧
    (∀ ng, Call.teacherForward ng ∈ iterBody cfg.kd cfg.train.amp →
       ng = true) ∧
    (∀ k t, Call.applyLoss k t ∈ iterBody cfg.kd cfg.train.amp →
       k = lossKind cfg.kd ∧ t = cfg.kd.enable) ∧
    Call.applyLoss (lossKind cfg.kd) cfg.kd.enable ∈
      iterBody cfg.kd cfg.train.amp := by
  refine ⟨teacherToEval_mem_mainRun cfg env gpu sz rest hsz,
          ?_, ?_, ?_, ?_, ?_, ?_, ?_⟩
  · intro he
    simp [mainRun, hsz, preCalls, setupCalls, he]
  · intro k h
    exact mkLossFn_mem_mainRun cfg env gpu k h
  · simp [mainRun, hsz, preCalls, setupCalls]
  · constructor
    · intro h
      rcases iterBody_mem_cases _ _ _ h with ⟨_, he⟩ | hc | hc | hc
      · exact he
      · cases hc
      · cases hc
      · cases hc
    · intro he
      simp [iterBody, he]
  · intro ng h
    rcases iterBody_mem_cases _ _ _ h with ⟨hc, _⟩ | hc | hc | hc
    · injection hc with h1
    · cases hc
    · cases hc
    · cases hc
  · intro k t h
    rcases iterBody_mem_cases _ _ _ h with ⟨hc, _⟩ | hc | hc | hc
    · cases hc
    · cases hc
    · injection hc with h1 h2
      exact ⟨h1, h2⟩
    · cases hc
  · simp [iterBody]

/-- Witness for C4 at the concrete configuration `cfgW` (KD disabled):
the label-smoothing loss is constructed and no teacher is put in eval
mode. -/
theorem kd_optional_witness :
    Call.mkLossFn (lossKind cfgW.kd) ∈ (mainRun cfgW envW 0).1 ∧
    ¬ (Call.teacherToEval ∈ (mainRun cfgW envW 0).1) := by
  have h := kd_optional_controlled_by_enable cfgW envW 0 224 [] (by decide)
  refine ⟨h.2.2.2.1, fun hm => ?_⟩
  have he := h.1.mp hm
  simp [cfgW] at he

theorem afterSetup_zero_epochs (cfg : Config) (env : Env)
    (h0 : cfg.train.epochs = 0) :
    afterSetup cfg env =
      ([Call.closeWriter], some (PyError.nameError "pbar")) := by
  simp [afterSetup, h0, loopEpochs]

/-- C8: with `TRAIN.EPOCHS = 0` the run ends in an uncaught `NameError`
on `pbar.close()` (`train.py:125`, the loop-local `pbar` was never bound):
the writer is closed first, but no checkpoint is saved, no scalar metric
is logged, and no results table is printed. -/
theorem zero_epochs_crashes_before_output (cfg : Config) (env : Env)
    (gpu sz : Nat) (rest : List Nat)
    (hsz : cfg.train.imageSize = sz :: rest)
    (h0 : cfg.train.epochs = 0) :
    (mainRun cfg env gpu).2 = some (PyError.nameError "pbar") ∧
    Call.closeWriter ∈ (mainRun cfg env gpu).1 ∧
    (∀ p u, Call.saveCkpt p u ∉ (mainRun cfg env gpu).1) ∧
    (∀ tg v st, Call.addScalar tg v st ∉ (mainRun cfg env gpu).1) ∧
    (∀ r, Call.printResultsTable r ∉ (mainRun cfg env gpu).1) := by
  have hAS := afterSetup_zero_epochs cfg env h0
  refine ⟨?_, ?_, ?_, ?_, ?_⟩
  · simp [mainRun, hsz, hAS]
  · simp [mainRun, hsz, hAS]
  · intro p u h
    rcases mainRun_mem_cases cfg env gpu _ h with h | ⟨sz2, h⟩ | h
    · rcases preCalls_mem_cases cfg env _ h with hc | hc | hc <;> cases hc
    · rcases setupCalls_mem_cases cfg env gpu sz2 _ h with
        ⟨nm, vr, pr, nc, hc⟩ | hc | hc | hc | hc <;> cases hc
    · rw [hAS] at h
      simp at h
  · intro tg v st h
    rcases mainRun_mem_cases cfg env gpu _ h with h | ⟨sz2, h⟩ | h
    · rcases preCalls_mem_cases cfg env _ h with hc | hc | hc <;> cases hc
    · rcases setupCalls_mem_cases cfg env gpu sz2 _ h with
        ⟨nm, vr, pr, nc, hc⟩ | hc | hc | hc | hc <;> cases hc
    · rw [hAS] at h
      simp at h
  · intro r h
    rcases mainRun_mem_cases cfg env gpu _ h with h | ⟨sz2, h⟩ | h
    · rcases preCalls_mem_cases cfg env _ h with hc | hc | hc <;> cases hc
    · rcases setupCalls_mem_cases cfg env gpu sz2 _ h with
        ⟨nm, vr, pr, nc, hc⟩ | hc | hc | hc | hc <;> cases hc
    · rw [hAS] at h
      simp at h

/-- The concrete configuration `cfgW` with zero training epochs. -/
def cfgW0 : Config :=
  { cfgW with train := { cfgW.train with epochs := 0 } }

/-- Witness for C8: with `cfgW0` (zero epochs) the run ends in the
`NameError` on `pbar` after closing the writer. -/
theorem zero_epochs_witness :
    (mainRun cfgW0 envW 0).2 = some (PyError.nameError "pbar") ∧
    Call.closeWriter ∈ (mainRun cfgW0 envW 0).1 := by
  have h := zero_epochs_crashes_before_output cfgW0 envW 0 224 []
    (by decide) (by decide)
  exact ⟨h.1, h.2.1⟩

theorem foldl_weighted_sum (l : List (Nat × ℚ)) (a : ℚ) :
    l.foldl (fun acc p => acc + p.2 * (p.1 : ℚ)) a =
      a + (l.map (fun p => p.2 * (p.1 : ℚ))).sum := by
  induction l generalizing a with
  | nil => simp
  | cons x t ih =>
      simp only [List.foldl_cons, List.map_cons, List.sum_cons, ih]
      ring

/-- C9: for an epoch with at least one completed iteration over batches
of sizes `b_i` and per-batch losses `l_i`, the value logged as
`train/loss` is `(Σ l_i * b_i) / n` with `n` the number of iterations
(not the per-sample average), and the epoch trace does log exactly this
value. -/
theorem logged_loss_is_per_iteration_average
    (batches : List (Nat × ℚ)) (hne : batches ≠ []) :
    epochLoss batches =
      (batches.map (fun p => p.2 * (p.1 : ℚ))).sum /
        (batches.length : ℚ) ∧
    (∀ (cfg : Config) (env : Env) (iters epoch : Nat) (best : ℚ × ℚ),
       iters ≠ 0 →
       Call.addScalar "train/loss"
         (epochLoss (epochBatches env cfg.train.batchSize iters epoch))
         epoch ∈ (epochTrace cfg env iters epoch best).1) := by
  constructor
  · unfold epochLoss epochLossSum
    rw [foldl_weighted_sum, zero_add]
  · intro cfg env iters epoch best h0
    unfold epochTrace
    rw [if_neg h0]
    split <;> simp

/-- Witness for C9 at the one-batch list `[(2, 3)]` and at the concrete
configuration `cfgW`. -/
theorem logged_loss_witness :
    epochLoss [(2, 3)] =
      (([(2, 3)] : List (Nat × ℚ)).map
        (fun p => p.2 * (p.1 : ℚ))).sum / (([(2, 3)] : List (Nat × ℚ)).length : ℚ) ∧
    Call.addScalar "train/loss"
      (epochLoss (epochBatches envW cfgW.train.batchSize 2 0)) 0 ∈
      (epochTrace cfgW envW 2 0 (0, 0)).1 := by
  have h := logged_loss_is_per_iteration_average [(2, 3)] (by simp)
  exact ⟨h.1, h.2 cfgW envW 2 0 (0, 0) (by decide)⟩

/-- C10: with `drop_last=True` every delivered training batch has exactly
`BATCH_SIZE` samples, the number of batches is `len(train_dataset)`
integer-divided by `BATCH_SIZE`, and this equals the `iters_per_epoch`
computed at `train.py:72`. -/
theorem drop_last_full_batches (n bs : Nat) (hbs : 0 < bs) :
    (∀ s ∈ dataLoaderBatchSizes n bs true, s = bs) ∧
    (dataLoaderBatchSizes n bs true).length = n / bs ∧
    itersPerEpoch n bs = (dataLoaderBatchSizes n bs true).length := by
  have hc := chunkSizes_eq bs hbs n
  have hmain : dataLoaderBatchSizes n bs true =
      List.replicate (n / bs) bs := by
    unfold dataLoaderBatchSizes
    by_cases hm : n % bs = 0
    · simp [hm, hc]
    · have hcond : (true && (n % bs != 0)) = true := by
        simp [hm]
      rw [hcond, if_pos rfl, hc, if_neg hm, List.dropLast_concat]
  rw [hmain]
  refine ⟨fun s hs => List.eq_of_mem_replicate hs, by simp, ?_⟩
  simp [itersPerEpoch]

/-- Witness for C10 at `n = 5`, `bs = 2`. -/
theorem drop_last_full_batches_witness :
    (∀ s ∈ dataLoaderBatchSizes 5 2 true, s = 2) ∧
    (dataLoaderBatchSizes 5 2 true).length = 5 / 2 ∧
    itersPerEpoch 5 2 = (dataLoaderBatchSizes 5 2 true).length :=
  drop_last_full_batches 5 2 (by decide)

theorem cleanupDDP_not_mem_mainRun (cfg : Config) (env : Env) (gpu : Nat) :
    Call.cleanupDDP ∉ (mainRun cfg env gpu).1 := by
  intro h
  rcases mainRun_mem_cases cfg env gpu _ h with h | ⟨sz, h⟩ | h
  · rcases preCalls_mem_cases cfg env _ h with hc | hc | hc <;> cases hc
  · rcases setupCalls_mem_cases cfg env gpu sz _ h with
      ⟨nm, vr, pr, nc, hc⟩ | hc | hc | hc | hc <;> cases hc
  · rcases afterSetup_mem_cases cfg env _ h with
      ⟨e2, b2, h2⟩ | hc | hc | hc | ⟨r, hc⟩
    · have hs := epochTrace_safe cfg env _ e2 b2 _ h2
      simp [epochSafe] at hs
    · cases hc
    · cases hc
    · cases hc
    · cases hc

/-- C7: nothing catches exceptions: a missing configuration file, a
failing `SAVE_DIR` read, a failing configuration access, and any exception
raised inside `main` all propagate unchanged out of the entry point, and
on failure inside `main` the trailing `cleanup_ddp` is never reached -- no
fallback or recovery path exists. -/
theorem errors_propagate_uncaught :
    (∀ (files : String → Option (List (String × YVal))) (p : String)
       (env : Env) (gpu : Nat), files p = none →
       entryPoint files p env gpu =
         ([], some (PyError.fileNotFound p))) ∧
    (∀ (files : String → Option (List (String × YVal))) (p : String)
       (d : List (String × YVal)) (env : Env) (gpu : Nat) (e : PyError),
       files p = some d → getStr d "SAVE_DIR" = Except.error e →
       entryPoint files p env gpu = ([], some e)) ∧
    (∀ (files : String → Option (List (String × YVal))) (p : String)
       (d : List (String × YVal)) (s : String) (env : Env) (gpu : Nat)
       (e : PyError),
       files p = some d → getStr d "SAVE_DIR" = Except.ok s →
       cfgOf d s = Except.error e →
       entryPoint files p env gpu = ([], some e)) ∧
    (∀ (files : String → Option (List (String × YVal))) (p : String)
       (d : List (String × YVal)) (s : String) (cfg : Config) (env : Env)
       (gpu : Nat) (e : PyError),
       files p = some d → getStr d "SAVE_DIR" = Except.ok s →
       cfgOf d s = Except.ok cfg → (mainRun cfg env gpu).2 = some e →
       (entryPoint files p env gpu).2 = some e ∧
       Call.cleanupDDP ∉ (entryPoint files p env gpu).1) := by
  refine ⟨?_, ?_, ?_, ?_⟩
  · intro files p env gpu hf
    unfold entryPoint
    rw [hf]
  · intro files p d env gpu e hf hs
    unfold entryPoint
    rw [hf]
    dsimp only
    rw [hs]
  · intro files p d s env gpu e hf hs hc
    unfold entryPoint
    rw [hf]
    dsimp only
    rw [hs]
    dsimp only
    rw [hc]
  · intro files p d s cfg env gpu e hf hs hc hm
    unfold entryPoint
    rw [hf]
    dsimp only
    rw [hs]
    dsimp only
    rw [hc]
    dsimp only
    rcases hM : mainRun cfg env gpu with ⟨t, err⟩
    rw [hM] at hm
    simp only at hm
    subst hm
    refine ⟨rfl, fun hmem => ?_⟩
    exact cleanupDDP_not_mem_mainRun cfg env gpu (by rw [hM]; exact hmem)

/-- A concrete YAML dict that parses to `cfgW0`. -/
def dictW : List (String × YVal) :=
  [("DEVICE", YVal.str "cuda"),
   ("TRAIN", YVal.dict
      [("EPOCHS", YVal.nat 0), ("BATCH_SIZE", YVal.nat 1),
       ("IMAGE_SIZE", YVal.natList [224]), ("DDP", YVal.bool false),
       ("AMP", YVal.bool false), ("EVAL_INTERVAL", YVal.nat 1)]),
   ("EVAL", YVal.dict
      [("BATCH_SIZE", YVal.nat 1), ("IMAGE_SIZE", YVal.natList [224])]),
   ("KD", YVal.dict
      [("ENABLE", YVal.bool false), ("ALPHA", YVal.rat 0),
       ("TEMP", YVal.rat 0)]),
   ("OPTIMIZER", YVal.dict
      [("NAME", YVal.str "sgd"), ("LR", YVal.rat 1),
       ("DECAY", YVal.rat 0)]),
   ("DATASET", YVal.dict [("ROOT", YVal.str "data")]),
   ("SCHEDULER", YVal.str "steplr"),
   ("MODEL", YVal.dict
      [("NAME", YVal.str "resnet"), ("VARIANT", YVal.str "18")]),
   ("SAVE_DIR", YVal.str "out")]

/-- Witness for C7: a dict without `SAVE_DIR` makes the entry point fail
with that `KeyError`, and with the full `dictW` (zero epochs) the
`NameError` from inside `main` surfaces unchanged and `cleanup_ddp` is
never called. -/
theorem errors_propagate_witness :
    entryPoint (fun _ => some []) "experiment.yaml" envW 0 =
      ([], some (PyError.keyError "SAVE_DIR")) ∧
    (entryPoint (fun _ => some dictW) "experiment.yaml" envW 0).2 =
      some (PyError.nameError "pbar") ∧
    Call.cleanupDDP ∉
      (entryPoint (fun _ => some dictW) "experiment.yaml" envW 0).1 := by
  refine ⟨?_, ?_⟩
  · exact errors_propagate_uncaught.2.1 (fun _ => some []) "experiment.yaml"
      [] envW 0 (PyError.keyError "SAVE_DIR") rfl rfl
  · exact errors_propagate_uncaught.2.2.2 (fun _ => some dictW)
      "experiment.yaml" dictW "out" cfgW0 envW 0
      (PyError.nameError "pbar") rfl rfl rfl (by decide)
